import Mathlib

/-! Verification of the quadrilateral mesh generator in FEM1.py.

Real arithmetic of the source is modelled over the rationals, Python
dictionaries keyed by int are modelled as association lists in insertion
order, and Python exceptions are modelled with Except and Option. -/

/-- Errors the Python runtime can raise inside create_mesh: float division
by zero when mesh_size is 0, and the numpy ValueError raised by linspace
when asked for a negative number of samples. -/
inductive PyError where
  | zeroDivision : PyError
  | valueError : PyError
deriving DecidableEq

/-- Node class of FEM1.py: index and 2-D coordinates. -/
structure Node where
  id : ℕ
  x : ℚ
  y : ℚ
deriving DecidableEq

/-- Element class of FEM1.py: index, the list of node indices (counter
clockwise from bottom left), thickness, and the cached coordinate array
xy, which the constructor leaves as None. -/
structure Element where
  id : ℕ
  node : List ℕ
  thickness : ℚ
  xy : Option (List (ℚ × ℚ))
deriving DecidableEq

/-- The coordinate collection loop of Element.get_coordination: look up
each node index of the element in the dictionary and record its x, y pair
in the declared node order; a missing key is a Python KeyError, modelled
as none (the xy field is only assigned after the whole loop succeeds). -/
def collectCoords (nodes_dict : List (ℕ × Node)) : List ℕ → Option (List (ℚ × ℚ))
  | [] => some []
  | p :: ps =>
    match nodes_dict.lookup p with
    | none => none
    | some nd => (collectCoords nodes_dict ps).map (fun rest => (nd.x, nd.y) :: rest)

/-- Element.get_coordination of FEM1.py: resolve the coordinates of the
nodes of the element and store them in the xy field. -/
def Element.get_coordination (e : Element) (nodes_dict : List (ℕ × Node)) : Option Element :=
  (collectCoords nodes_dict e.node).map (fun res => { e with xy := some res })

/-- Mesh class of FEM1.py: the node dictionary and the element list. -/
structure Mesh where
  nodes : List (ℕ × Node)
  elements : List Element
deriving DecidableEq

/-- Mesh.get_element_coord of FEM1.py: run get_coordination on every
element; a KeyError in any element aborts the construction. -/
def get_element_coord (nodes : List (ℕ × Node)) : List Element → Option (List Element)
  | [] => some []
  | e :: es =>
    match e.get_coordination nodes with
    | none => none
    | some e2 => (get_element_coord nodes es).map (fun rest => e2 :: rest)

/-- Mesh construction (Mesh.__init__ of FEM1.py): store the node
dictionary and the element list and immediately resolve every element
coordinate array from the node dictionary. -/
def Mesh.build (nodes_dict : List (ℕ × Node)) (elements : List Element) : Option Mesh :=
  (get_element_coord nodes_dict elements).map (fun es => Mesh.mk nodes_dict es)

/-- Python int applied to a real number: truncation toward zero. -/
def pyInt (q : ℚ) : ℤ := if 0 ≤ q then ⌊q⌋ else ⌈q⌉

/-- np.linspace 0 stop num: num evenly spaced samples from 0 to stop
inclusive, exact in rational arithmetic. -/
def linspace (stop : ℚ) (num : ℕ) : List ℚ :=
  (List.range num).map (fun (i : ℕ) => (i : ℚ) * stop / ((num : ℚ) - 1))

/-- np.meshgrid of the x and y samples followed by ravel of both grids,
as consumed by the node creation loop: the row major cartesian product,
y outermost (bottom row first). -/
def meshgridRavel (x y : List ℚ) : List (ℚ × ℚ) :=
  y.flatMap (fun yv => x.map (fun xv => (xv, yv)))

/-- Lines 127 to 132 of FEM1.py: the number of mesh divisions along one
axis, truncated from extent / mesh_size and clamped to 1 when zero. -/
def clampCount (extent mesh_size : ℚ) : ℤ :=
  if pyInt (extent / mesh_size) = 0 then 1 else pyInt (extent / mesh_size)

/-- Lines 139 to 141 of FEM1.py: the node dictionary built by enumerating
the raveled lattice points. -/
def nodesOf (pts : List (ℚ × ℚ)) : List (ℕ × Node) :=
  pts.enum.map (fun p => (p.1, Node.mk p.1 p.2.1 p.2.2))

/-- The running state of the element creation loop of create_mesh: the
flat node cursor, the next element id, and the elements created so far. -/
structure ElemState where
  node_idx : ℕ
  elem_idx : ℕ
  elems : List Element
deriving DecidableEq

/-- One column position of the element creation loop, lines 149 to 157
of FEM1.py: if node_idx + 1 is an exact multiple of num_mesh_len + 1 the
position is skipped and only the cursor advances; otherwise one quad is
appended whose corners are node_idx, node_idx + 1,
node_idx + num_mesh_len + 2, node_idx + num_mesh_len + 1. -/
def elem_step (num_mesh_len : ℕ) (thickness : ℚ) (s : ElemState) : ElemState :=
  if (s.node_idx + 1) % (num_mesh_len + 1) = 0 then
    { s with node_idx := s.node_idx + 1 }
  else
    ElemState.mk (s.node_idx + 1) (s.elem_idx + 1)
      (s.elems ++ [Element.mk s.elem_idx
        [s.node_idx, s.node_idx + 1, s.node_idx + num_mesh_len + 2,
         s.node_idx + num_mesh_len + 1] thickness none])

/-- The nested element creation loop of create_mesh, lines 144 to 157 of
FEM1.py: num_mesh_hei row iterations, each spanning num_mesh_len + 1
column positions, starting from cursor 0, element id 0 and no elements. -/
def create_elems (num_mesh_hei num_mesh_len : ℕ) (thickness : ℚ) : List Element :=
  ((List.range num_mesh_hei).foldl
    (fun s _ =>
      (List.range (num_mesh_len + 1)).foldl
        (fun s2 _ => elem_step num_mesh_len thickness s2) s)
    (ElemState.mk 0 0 [])).elems

/-- create_mesh of FEM1.py, lines 112 to 158.  Python raises
ZeroDivisionError on mesh_size = 0 and np.linspace raises ValueError on a
negative sample count; both are modelled in the error channel.  The
sample counts handed to range and linspace are Python ints; their values
are taken with Int.toNat here, which agrees with the source on every
path that reaches the loops with a nonnegative count. -/
def create_mesh (length height mesh_size thickness : ℚ) :
    Except PyError (List (ℕ × Node) × List Element) :=
  if mesh_size = 0 then Except.error PyError.zeroDivision
  else
    let num_mesh_len : ℤ := clampCount length mesh_size
    let num_mesh_hei : ℤ := clampCount height mesh_size
    if num_mesh_len + 1 < 0 ∨ num_mesh_hei + 1 < 0 then Except.error PyError.valueError
    else
      let x := linspace length (num_mesh_len + 1).toNat
      let y := linspace height (num_mesh_hei + 1).toNat
      Except.ok (nodesOf (meshgridRavel x y),
        create_elems num_mesh_hei.toNat num_mesh_len.toNat thickness)

/-- Signed polygon area by the shoelace formula over the cyclically
consecutive vertex pairs of the list. -/
def signedArea (pts : List (ℚ × ℚ)) : ℚ :=
  ((pts.zip (pts.rotate 1)).map (fun pq => pq.1.1 * pq.2.2 - pq.2.1 * pq.1.2)).sum / 2

/-- Closed form of element k of the generated connectivity for m element
columns: its bottom left cursor is k + k / m. -/
def elemAt (m : ℕ) (t : ℚ) (k : ℕ) : Element :=
  Element.mk k [k + k / m, k + k / m + 1, k + k / m + m + 2, k + k / m + m + 1] t none

/-- One row of elements as produced by the loop: row r, starting element
id e, for m element columns. -/
def rowOf (m : ℕ) (t : ℚ) (r e : ℕ) : List Element :=
  (List.range m).map (fun i =>
    Element.mk (e + i)
      [r * (m + 1) + i, r * (m + 1) + i + 1, r * (m + 1) + i + m + 2,
       r * (m + 1) + i + m + 1] t none)

/-- Concrete node table for witnesses: the corners of the unit square in
row major order. -/
def unitNodes : List (ℕ × Node) :=
  [(0, Node.mk 0 0 0), (1, Node.mk 1 1 0), (2, Node.mk 2 0 1), (3, Node.mk 3 1 1)]

/-- Concrete element on unitNodes, counter clockwise from bottom left. -/
def unitElem : Element := Element.mk 0 [0, 1, 3, 2] 1 none

/-- Concrete element with a dangling node reference. -/
def danglingElem : Element := Element.mk 1 [0, 5, 3, 2] 1 none
section Helpers

lemma foldl_range_const {α : Type} (f : α → α) (n : ℕ) (a : α) :
    (List.range n).foldl (fun s _ => f s) a = f^[n] a := by
  induction n generalizing a with
  | zero => rfl
  | succ k ih =>
    rw [List.range_succ, List.foldl_append, ih, Function.iterate_succ_apply']
    rfl

lemma create_elems_iterate (n m : ℕ) (t : ℚ) :
    create_elems n m t = ((elem_step m t)^[n * (m + 1)] (ElemState.mk 0 0 [])).elems := by
  unfold create_elems
  have h1 : (fun (s : ElemState) (x : ℕ) =>
        (List.range (m + 1)).foldl (fun s2 _ => elem_step m t s2) s)
      = (fun s _ => (elem_step m t)^[m + 1] s) := by
    funext s x
    exact foldl_range_const _ _ _
  rw [h1, foldl_range_const ((elem_step m t)^[m + 1]), ← Function.iterate_mul]
  have h2 : (m + 1) * n = n * (m + 1) := Nat.mul_comm _ _
  rw [h2]

lemma elem_step_iterate_row (m : ℕ) (t : ℚ) (r e : ℕ) (l : List Element) :
    ∀ j, j ≤ m →
      (elem_step m t)^[j] (ElemState.mk (r * (m + 1)) e l)
        = ElemState.mk (r * (m + 1) + j) (e + j) (l ++ (rowOf m t r e).take j) := by
  intro j
  induction j with
  | zero => intro _; simp
  | succ i ih =>
    intro hj
    rw [Function.iterate_succ_apply', ih (by omega)]
    have hmod : (r * (m + 1) + i + 1) % (m + 1) = i + 1 := by
      have h1 : r * (m + 1) + i + 1 = (i + 1) + r * (m + 1) := by ring
      rw [h1, Nat.add_mul_mod_self_right, Nat.mod_eq_of_lt (by omega)]
    have htake : (rowOf m t r e).take (i + 1)
        = (rowOf m t r e).take i ++ [Element.mk (e + i)
            [r * (m + 1) + i, r * (m + 1) + i + 1, r * (m + 1) + i + m + 2,
             r * (m + 1) + i + m + 1] t none] := by
      have hlt : i < (rowOf m t r e).length := by
        simp [rowOf]; omega
      rw [List.take_succ, List.getElem?_eq_getElem hlt]
      simp [rowOf]
    rw [elem_step, if_neg (by simp [hmod])]
    simp only [htake]
    simp [List.append_assoc]
    omega

lemma elem_step_iterate_row_full (m : ℕ) (t : ℚ) (r e : ℕ) (l : List Element) :
    (elem_step m t)^[m + 1] (ElemState.mk (r * (m + 1)) e l)
      = ElemState.mk ((r + 1) * (m + 1)) (e + m) (l ++ rowOf m t r e) := by
  rw [Function.iterate_succ_apply', elem_step_iterate_row m t r e l m (le_refl m)]
  have hmod : (r * (m + 1) + m + 1) % (m + 1) = 0 := by
    have h1 : r * (m + 1) + m + 1 = (r + 1) * (m + 1) := by ring
    rw [h1, Nat.mul_mod_left]
  rw [elem_step, if_pos hmod]
  have htake : (rowOf m t r e).take m = rowOf m t r e := by
    apply List.take_of_length_le
    simp [rowOf]
  rw [htake]
  have h2 : r * (m + 1) + m + 1 = (r + 1) * (m + 1) := by ring
  simp [h2]

lemma create_elems_rows (n m : ℕ) (t : ℚ) :
    create_elems n m t = (List.range n).flatMap (fun r => rowOf m t r (r * m)) := by
  rw [create_elems_iterate]
  have inv : ∀ k : ℕ,
      (elem_step m t)^[k * (m + 1)] (ElemState.mk 0 0 [])
        = ElemState.mk (k * (m + 1)) (k * m)
            ((List.range k).flatMap (fun r => rowOf m t r (r * m))) := by
    intro k
    induction k with
    | zero => simp
    | succ k ih =>
      have hsplit : (k + 1) * (m + 1) = (m + 1) + k * (m + 1) := by ring
      rw [hsplit, Function.iterate_add_apply, ih, elem_step_iterate_row_full]
      have h1 : k * m + m = (k + 1) * m := by ring
      rw [h1, List.range_succ, List.flatMap_append]
      simp
      try ring
  rw [inv]

end Helpers
lemma create_elems_length (n m : ℕ) (t : ℚ) :
    (create_elems n m t).length = m * n := by
  rw [create_elems_rows]
  induction n with
  | zero => simp
  | succ k ih =>
    rw [List.range_succ, List.flatMap_append, List.length_append, ih]
    simp [rowOf]
    ring

lemma create_elems_map (n m : ℕ) (t : ℚ) (hm : 0 < m) :
    create_elems n m t = (List.range (m * n)).map (elemAt m t) := by
  rw [create_elems_rows]
  induction n with
  | zero => simp
  | succ k ih =>
    have hmk : m * (k + 1) = m * k + m := by ring
    rw [List.range_succ, List.flatMap_append, ih, hmk, List.range_add, List.map_append,
      List.map_map]
    congr 1
    simp only [List.flatMap_cons, List.flatMap_nil, List.append_nil]
    unfold rowOf
    apply List.map_congr_left
    intro j hj
    have hjm : j < m := List.mem_range.mp hj
    have hdiv : (m * k + j) / m = k := by
      rw [Nat.mul_add_div hm, Nat.div_eq_of_lt hjm, Nat.add_zero]
    simp only [Function.comp_apply, elemAt, hdiv, Element.mk.injEq, List.cons.injEq, and_true]
    refine ⟨by ring, by ring, by ring, by ring, by ring⟩

lemma create_elems_trace (n m : ℕ) (t : ℚ) :
    (create_elems n m t).map (fun e => e.node.headI)
      = (List.range (n * (m + 1))).filter (fun p => !((p + 1) % (m + 1) == 0)) := by
  rw [create_elems_rows]
  induction n with
  | zero => simp
  | succ k ih =>
    have hsplit : (k + 1) * (m + 1) = k * (m + 1) + (m + 1) := by ring
    rw [List.range_succ, List.flatMap_append, List.map_append, ih, hsplit, List.range_add,
      List.filter_append]
    congr 1
    simp only [List.flatMap_cons, List.flatMap_nil, List.append_nil]
    rw [List.filter_map]
    have hrow : ∀ j, (fun p => !((p + 1) % (m + 1) == 0)) (k * (m + 1) + j)
        = !((j + 1) % (m + 1) == 0) := by
      intro j
      have h1 : k * (m + 1) + j + 1 = (j + 1) + k * (m + 1) := by ring
      simp only [h1, Nat.add_mul_mod_self_right]
    have hfil : (List.range (m + 1)).filter
          ((fun p => !((p + 1) % (m + 1) == 0)) ∘ (fun j => k * (m + 1) + j))
        = List.range m := by
      rw [List.range_succ, List.filter_append]
      have hall : (List.range m).filter
            ((fun p => !((p + 1) % (m + 1) == 0)) ∘ (fun j => k * (m + 1) + j))
          = List.range m := by
        apply List.filter_eq_self.mpr
        intro j hj
        have hjm : j < m := List.mem_range.mp hj
        simp only [Function.comp_apply, hrow j, Nat.mod_eq_of_lt (by omega : j + 1 < m + 1)]
        simp
      rw [hall]
      have hlast : ([m].filter
            ((fun p => !((p + 1) % (m + 1) == 0)) ∘ (fun j => k * (m + 1) + j))) = [] := by
        simp [hrow m]
      rw [hlast, List.append_nil]
    rw [hfil]
    unfold rowOf
    rw [List.map_map]
    apply List.map_congr_left
    intro j hj
    simp [List.headI]
lemma clampCount_ge_one (ex ms : ℚ) (hex : 0 ≤ ex) (hms : 0 < ms) :
    1 ≤ clampCount ex ms := by
  have h0 : 0 ≤ ex / ms := div_nonneg hex hms.le
  have hpy : pyInt (ex / ms) = ⌊ex / ms⌋ := by unfold pyInt; rw [if_pos h0]
  have hfl : 0 ≤ ⌊ex / ms⌋ := Int.floor_nonneg.mpr h0
  unfold clampCount
  rw [hpy]
  by_cases hz : ⌊ex / ms⌋ = 0
  · rw [if_pos hz]
  · rw [if_neg hz]; omega

lemma clampCount_eq_max (ex ms : ℚ) (hex : 0 ≤ ex) (hms : 0 < ms) :
    clampCount ex ms = max 1 ⌊ex / ms⌋ := by
  have h0 : 0 ≤ ex / ms := div_nonneg hex hms.le
  have hpy : pyInt (ex / ms) = ⌊ex / ms⌋ := by unfold pyInt; rw [if_pos h0]
  have hfl : 0 ≤ ⌊ex / ms⌋ := Int.floor_nonneg.mpr h0
  unfold clampCount
  rw [hpy]
  by_cases hz : ⌊ex / ms⌋ = 0
  · rw [if_pos hz, hz]; omega
  · rw [if_neg hz]; omega

lemma create_mesh_pos (l h ms t : ℚ) (hl : 0 ≤ l) (hh : 0 ≤ h) (hms : 0 < ms) :
    create_mesh l h ms t = Except.ok
      (nodesOf (meshgridRavel (linspace l ((clampCount l ms).toNat + 1))
                              (linspace h ((clampCount h ms).toNat + 1))),
       create_elems (clampCount h ms).toNat (clampCount l ms).toNat t) := by
  have h1 : 1 ≤ clampCount l ms := clampCount_ge_one l ms hl hms
  have h2 : 1 ≤ clampCount h ms := clampCount_ge_one h ms hh hms
  have hcond : ¬(clampCount l ms + 1 < 0 ∨ clampCount h ms + 1 < 0) := by omega
  have e1 : (clampCount l ms + 1).toNat = (clampCount l ms).toNat + 1 := by omega
  have e2 : (clampCount h ms + 1).toNat = (clampCount h ms).toNat + 1 := by omega
  simp only [create_mesh, if_neg hms.ne', if_neg hcond, e1, e2]

lemma linspace_length (s : ℚ) (num : ℕ) : (linspace s num).length = num := by
  simp only [linspace, List.length_map, List.length_range]

lemma linspace_getElem? (s : ℚ) (num i : ℕ) (hi : i < num) :
    (linspace s num)[i]? = some ((i : ℚ) * s / ((num : ℚ) - 1)) := by
  simp only [linspace, List.getElem?_map, List.getElem?_range, hi, if_pos]
  rfl

lemma meshgridRavel_length (x y : List ℚ) :
    (meshgridRavel x y).length = y.length * x.length := by
  induction y with
  | nil => simp [meshgridRavel]
  | cons yv ys ih =>
    simp only [meshgridRavel, List.flatMap_cons, List.length_append, List.length_map,
      List.length_cons] at *
    rw [ih]
    ring

lemma meshgridRavel_getElem? (x y : List ℚ) (r c : ℕ) (hc : c < x.length) :
    (meshgridRavel x y)[r * x.length + c]? = (y[r]?).map (fun yv => (x[c], yv)) := by
  induction y generalizing r with
  | nil => simp [meshgridRavel]
  | cons yv ys ih =>
    cases r with
    | zero =>
      have hlen : 0 * x.length + c < (List.map (fun xv => (xv, yv)) x).length := by
        simp; omega
      simp only [meshgridRavel, List.flatMap_cons]
      rw [List.getElem?_append, if_pos hlen]
      simp [List.getElem?_map, List.getElem?_eq_getElem hc]
    | succ r =>
      have hsum : (r + 1) * x.length + c = x.length + (r * x.length + c) := by ring
      simp only [meshgridRavel, List.flatMap_cons]
      rw [hsum, List.getElem?_append,
        if_neg (by rw [List.length_map]; exact Nat.not_lt.mpr (Nat.le_add_right _ _))]
      rw [List.length_map, Nat.add_sub_cancel_left]
      have hih := ih r
      simp only [meshgridRavel] at hih
      rw [hih]
      simp

lemma nodesOf_length (pts : List (ℚ × ℚ)) : (nodesOf pts).length = pts.length := by
  simp [nodesOf]

lemma nodesOf_getElem? (pts : List (ℚ × ℚ)) (i : ℕ) :
    (nodesOf pts)[i]? = (pts[i]?).map (fun c => (i, Node.mk i c.1 c.2)) := by
  simp only [nodesOf, List.getElem?_map, List.getElem?_enum]
  cases pts[i]? with
  | none => rfl
  | some c => rfl

lemma nodesOf_map_fst (pts : List (ℚ × ℚ)) :
    (nodesOf pts).map Prod.fst = List.range pts.length := by
  simp only [nodesOf, List.map_map]
  have hfun : (Prod.fst ∘ fun p : ℕ × ℚ × ℚ => (p.1, Node.mk p.1 p.2.1 p.2.2)) = Prod.fst := rfl
  rw [hfun, List.enum_map_fst]

lemma nodesOf_lookup_aux (pts : List (ℚ × ℚ)) : ∀ (s i : ℕ),
    ((List.enumFrom s pts).map (fun p => (p.1, Node.mk p.1 p.2.1 p.2.2))).lookup (s + i)
      = (pts[i]?).map (fun c => Node.mk (s + i) c.1 c.2) := by
  induction pts with
  | nil => intro s i; rfl
  | cons c ps ih =>
    intro s i
    cases i with
    | zero => simp [List.enumFrom, List.lookup]
    | succ j =>
      have hbeq : (s + (j + 1) == s) = false := by simp
      simp only [List.enumFrom, List.map_cons, List.lookup, hbeq]
      have harith : s + (j + 1) = s + 1 + j := by omega
      rw [harith, ih (s + 1) j]
      try simp

lemma nodesOf_lookup (pts : List (ℚ × ℚ)) (i : ℕ) :
    (nodesOf pts).lookup i = (pts[i]?).map (fun c => Node.mk i c.1 c.2) := by
  have := nodesOf_lookup_aux pts 0 i
  simpa [nodesOf, List.enum] using this
lemma collectCoords_isSome_iff (d : List (ℕ × Node)) (ps : List ℕ) :
    (collectCoords d ps).isSome = true ↔ ∀ p ∈ ps, (d.lookup p).isSome = true := by
  induction ps with
  | nil => simp [collectCoords]
  | cons p ps ih =>
    simp only [collectCoords, List.forall_mem_cons]
    cases hl : d.lookup p with
    | none => simp [hl]
    | some nd => simp [hl, ih]

lemma collectCoords_some_spec (d : List (ℕ × Node)) (ps : List ℕ) (cs : List (ℚ × ℚ)) :
    collectCoords d ps = some cs →
      cs.length = ps.length ∧
      ∀ i : ℕ, cs[i]? = ((ps[i]?).bind (fun p => d.lookup p)).map (fun nd => (nd.x, nd.y)) := by
  induction ps generalizing cs with
  | nil =>
    intro hc
    simp only [collectCoords, Option.some.injEq] at hc
    subst hc
    simp
  | cons p ps ih =>
    intro hc
    simp only [collectCoords] at hc
    cases hl : d.lookup p with
    | none => rw [hl] at hc; simp at hc
    | some nd =>
      rw [hl] at hc
      cases hrest : collectCoords d ps with
      | none => rw [hrest] at hc; simp at hc
      | some rest =>
        rw [hrest] at hc
        simp only [Option.map_some', Option.some.injEq] at hc
        obtain ⟨hlen, hget⟩ := ih rest hrest
        subst hc
        constructor
        · simp [hlen]
        · intro i
          cases i with
          | zero => simp [hl]
          | succ j => simpa using hget j

lemma collectCoords_none_of_missing (d : List (ℕ × Node)) (ps : List ℕ)
    (hmiss : ∃ p ∈ ps, d.lookup p = none) : collectCoords d ps = none := by
  cases hc : collectCoords d ps with
  | none => rfl
  | some cs =>
    exfalso
    obtain ⟨p, hp, hnone⟩ := hmiss
    have hs : (collectCoords d ps).isSome = true := by rw [hc]; rfl
    have := (collectCoords_isSome_iff d ps).mp hs p hp
    rw [hnone] at this
    simp at this

lemma get_element_coord_some_spec (d : List (ℕ × Node)) (es es2 : List Element) :
    get_element_coord d es = some es2 →
      es2.map (fun e => (e.id, e.node, e.thickness))
        = es.map (fun e => (e.id, e.node, e.thickness))
      ∧ ∀ e2 ∈ es2, e2.xy.isSome = true := by
  induction es generalizing es2 with
  | nil =>
    intro hc
    simp only [get_element_coord, Option.some.injEq] at hc
    subst hc
    simp
  | cons e es ih =>
    intro hc
    simp only [get_element_coord] at hc
    cases hg : e.get_coordination d with
    | none => rw [hg] at hc; simp at hc
    | some e2 =>
      rw [hg] at hc
      cases hrest : get_element_coord d es with
      | none => rw [hrest] at hc; simp at hc
      | some rest =>
        rw [hrest] at hc
        simp only [Option.map_some', Option.some.injEq] at hc
        obtain ⟨hproj, hxy⟩ := ih rest hrest
        subst hc
        simp only [Element.get_coordination] at hg
        cases hcc : collectCoords d e.node with
        | none => rw [hcc] at hg; simp at hg
        | some res =>
          rw [hcc] at hg
          simp only [Option.map_some', Option.some.injEq] at hg
          subst hg
          constructor
          · simp [hproj]
          · intro e3 he3
            rcases List.mem_cons.mp he3 with h0 | hmem
            · subst h0; rfl
            · exact hxy e3 hmem

lemma get_element_coord_isSome (d : List (ℕ × Node)) (es : List Element)
    (h : ∀ e ∈ es, ∀ p ∈ e.node, (d.lookup p).isSome = true) :
    (get_element_coord d es).isSome = true := by
  induction es with
  | nil => simp [get_element_coord]
  | cons e es ih =>
    have h1 : (e.get_coordination d).isSome = true := by
      simp only [Element.get_coordination, Option.isSome_map']
      exact (collectCoords_isSome_iff d e.node).mpr (h e (List.mem_cons_self e es))
    have h2 : (get_element_coord d es).isSome = true :=
      ih (fun e2 he2 p hp => h e2 (List.mem_cons_of_mem _ he2) p hp)
    simp only [get_element_coord]
    cases hg : e.get_coordination d with
    | none => rw [hg] at h1; simp at h1
    | some e2 =>
      cases hrest : get_element_coord d es with
      | none => rw [hrest] at h2; simp at h2
      | some rest => simp

lemma lattice_getElem (l h : ℚ) (m n i : ℕ) (hi : i < (m + 1) * (n + 1)) :
    (nodesOf (meshgridRavel (linspace l (m + 1)) (linspace h (n + 1))))[i]?
      = some (i, Node.mk i (((i % (m + 1) : ℕ) : ℚ) * l / (m : ℚ))
          (((i / (m + 1) : ℕ) : ℚ) * h / (n : ℚ))) := by
  have hxlen : (linspace l (m + 1)).length = m + 1 := linspace_length l (m + 1)
  have hc : i % (m + 1) < m + 1 := Nat.mod_lt _ (by omega)
  have hr : i / (m + 1) < n + 1 := by
    rw [Nat.div_lt_iff_lt_mul (by omega : 0 < m + 1), Nat.mul_comm (n + 1) (m + 1)]
    exact hi
  have hcx : i % (m + 1) < (linspace l (m + 1)).length := by rw [hxlen]; exact hc
  have hgrid := meshgridRavel_getElem? (linspace l (m + 1)) (linspace h (n + 1))
    (i / (m + 1)) (i % (m + 1)) hcx
  have hxval : (linspace l (m + 1))[i % (m + 1)]?
      = some (((i % (m + 1) : ℕ) : ℚ) * l / (((m + 1 : ℕ) : ℚ) - 1)) :=
    linspace_getElem? l (m + 1) (i % (m + 1)) hc
  have hxtot : (linspace l (m + 1))[i % (m + 1)]
      = ((i % (m + 1) : ℕ) : ℚ) * l / (((m + 1 : ℕ) : ℚ) - 1) := by
    have := List.getElem?_eq_getElem hcx
    rw [this] at hxval
    exact Option.some.inj hxval
  have hyval : (linspace h (n + 1))[i / (m + 1)]?
      = some (((i / (m + 1) : ℕ) : ℚ) * h / (((n + 1 : ℕ) : ℚ) - 1)) :=
    linspace_getElem? h (n + 1) (i / (m + 1)) hr
  have hidx : i = i / (m + 1) * (linspace l (m + 1)).length + i % (m + 1) := by
    rw [hxlen, Nat.mul_comm (i / (m + 1)) (m + 1)]
    exact (Nat.div_add_mod i (m + 1)).symm
  have hcast1 : ((m + 1 : ℕ) : ℚ) - 1 = (m : ℚ) := by push_cast; ring
  have hcast2 : ((n + 1 : ℕ) : ℚ) - 1 = (n : ℚ) := by push_cast; ring
  rw [← hidx] at hgrid
  rw [nodesOf_getElem?, hgrid, hyval]
  simp only [Option.map_some']
  rw [hxtot, hcast1, hcast2]
lemma rowcol_mod_div (m r j : ℕ) (hj : j < m + 1) :
    (r * (m + 1) + j) % (m + 1) = j ∧ (r * (m + 1) + j) / (m + 1) = r := by
  have h1 : r * (m + 1) + j = j + r * (m + 1) := by ring
  constructor
  · rw [h1, Nat.add_mul_mod_self_right, Nat.mod_eq_of_lt hj]
  · rw [h1, Nat.add_mul_div_right _ _ (by omega : 0 < m + 1), Nat.div_eq_of_lt hj]
    omega

lemma nodesOf_lookup_isSome (pts : List (ℚ × ℚ)) (p : ℕ) (hp : p < pts.length) :
    ((nodesOf pts).lookup p).isSome = true := by
  rw [nodesOf_lookup, List.getElem?_eq_getElem hp]
  rfl

lemma lattice_lookup (l h : ℚ) (m n i : ℕ) (hi : i < (m + 1) * (n + 1)) :
    (nodesOf (meshgridRavel (linspace l (m + 1)) (linspace h (n + 1)))).lookup i
      = some (Node.mk i (((i % (m + 1) : ℕ) : ℚ) * l / (m : ℚ))
          (((i / (m + 1) : ℕ) : ℚ) * h / (n : ℚ))) := by
  rw [nodesOf_lookup]
  have h1 := lattice_getElem l h m n i hi
  rw [nodesOf_getElem?] at h1
  cases hp : (meshgridRavel (linspace l (m + 1)) (linspace h (n + 1)))[i]? with
  | none => rw [hp] at h1; simp at h1
  | some c =>
    rw [hp] at h1
    simp only [Option.map_some', Option.some.injEq, Prod.mk.injEq, Node.mk.injEq,
      true_and] at h1
    obtain ⟨hx, hy⟩ := h1
    simp [hx, hy]

lemma signedArea_quad (a b c d : ℚ × ℚ) :
    signedArea [a, b, c, d]
      = (a.1 * b.2 - b.1 * a.2 + (b.1 * c.2 - c.1 * b.2) + (c.1 * d.2 - d.1 * c.2)
          + (d.1 * a.2 - a.1 * d.2)) / 2 := by
  simp [signedArea, List.rotate]
  ring

lemma create_elems_node_bound (n m : ℕ) (t : ℚ) (hm : 0 < m) :
    ∀ e ∈ create_elems n m t, e.node.length = 4 ∧ e.node.Nodup ∧
      ∀ p ∈ e.node, p < (m + 1) * (n + 1) := by
  intro e he
  rw [create_elems_rows] at he
  obtain ⟨r, hrmem, he⟩ := List.mem_flatMap.mp he
  rw [List.mem_range] at hrmem
  simp only [rowOf] at he
  obtain ⟨j, hjmem, rfl⟩ := List.mem_map.mp he
  rw [List.mem_range] at hjmem
  have hrel : r * (m + 1) + j + m + 2 = (r + 1) * (m + 1) + (j + 1) := by ring
  have hrel2 : r * (m + 1) + j + m + 1 = (r + 1) * (m + 1) + j := by ring
  have hgen : ∀ rr jj : ℕ, rr ≤ n → jj ≤ m → rr * (m + 1) + jj < (m + 1) * (n + 1) := by
    intro rr jj hrr hjj
    have hmul : rr * (m + 1) ≤ n * (m + 1) := Nat.mul_le_mul_right _ hrr
    have hsum : (m + 1) * (n + 1) = n * (m + 1) + (m + 1) := by ring
    omega
  refine ⟨rfl, ?_, ?_⟩
  · simp only [List.nodup_cons, List.mem_cons, List.mem_singleton, List.not_mem_nil,
      or_false, List.nodup_nil, and_true, List.nodup_singleton, not_false_iff]
    exact ⟨by omega, by omega, by omega⟩
  · intro p hp
    simp only [List.mem_cons, List.mem_singleton, List.not_mem_nil, or_false] at hp
    rcases hp with rfl | rfl | rfl | rfl
    · exact hgen r j (by omega) (by omega)
    · exact hgen r (j + 1) (by omega) (by omega)
    · rw [hrel]
      exact hgen (r + 1) (j + 1) (by omega) (by omega)
    · rw [hrel2]
      exact hgen (r + 1) j (by omega) (by omega)
/-- C2: for all positive length, height and mesh_size (any thickness), the
generated node count equals (max 1 ⌊length/mesh_size⌋ + 1) * (max 1 ⌊height/mesh_size⌋ + 1),
so num_cols and num_rows are the floors of extent over mesh_size, each
clamped to 1 when zero, and the node ids are exactly the dense contiguous
range 0 .. count - 1 in insertion order. -/
theorem create_mesh_node_count (length height mesh_size thickness : ℚ)
    (hl : 0 < length) (hh : 0 < height) (hms : 0 < mesh_size) :
    ∃ nodes elems, create_mesh length height mesh_size thickness = Except.ok (nodes, elems) ∧
      (nodes.length : ℤ)
        = (max 1 ⌊length / mesh_size⌋ + 1) * (max 1 ⌊height / mesh_size⌋ + 1) ∧
      nodes.map Prod.fst = List.range nodes.length := by
  refine ⟨_, _, create_mesh_pos length height mesh_size thickness hl.le hh.le hms, ?_, ?_⟩
  · rw [nodesOf_length, meshgridRavel_length, linspace_length, linspace_length,
      ← clampCount_eq_max length mesh_size hl.le hms,
      ← clampCount_eq_max height mesh_size hh.le hms]
    have h1 : 1 ≤ clampCount length mesh_size := clampCount_ge_one length mesh_size hl.le hms
    have h2 : 1 ≤ clampCount height mesh_size := clampCount_ge_one height mesh_size hh.le hms
    push_cast
    rw [Int.toNat_of_nonneg (by omega), Int.toNat_of_nonneg (by omega)]
    ring
  · rw [nodesOf_map_fst, nodesOf_length]

/-- C2 witness at length 10, height 10, mesh_size 5, thickness 1. -/
theorem create_mesh_node_count_witness :
    ∃ nodes elems, create_mesh 10 10 5 1 = Except.ok (nodes, elems) ∧
      (nodes.length : ℤ)
        = (max 1 ⌊(10 : ℚ) / 5⌋ + 1) * (max 1 ⌊(10 : ℚ) / 5⌋ + 1) ∧
      nodes.map Prod.fst = List.range nodes.length :=
  create_mesh_node_count 10 10 5 1 (by decide) (by decide) (by decide)

/-- C7 counterexample: at length 10, height 4, mesh_size 2 the code
produces 18 nodes and 10 elements, not the 21 nodes and 12 elements the
claim asserts, because floor of 10 / 2 is 5 columns, not 6. -/
theorem scenario3_cex :
    ∃ nodes elems, create_mesh 10 4 2 1 = Except.ok (nodes, elems) ∧
      nodes.length = 18 ∧ elems.length = 10 ∧
      ¬(nodes.length = 21 ∧ elems.length = 12) := by
  have hL : clampCount 10 2 = 5 := by
    rw [clampCount_eq_max 10 2 (by norm_num) (by norm_num)]
    norm_num
  have hH : clampCount 4 2 = 2 := by
    rw [clampCount_eq_max 4 2 (by norm_num) (by norm_num)]
    norm_num
  refine ⟨_, _, create_mesh_pos 10 4 2 1 (by norm_num) (by norm_num) (by norm_num), ?_, ?_, ?_⟩
  · rw [hL, hH, nodesOf_length, meshgridRavel_length, linspace_length, linspace_length]
    decide
  · rw [hL, hH]
    exact create_elems_length 2 5 1
  · rw [hL, hH, nodesOf_length, meshgridRavel_length, linspace_length, linspace_length]
    intro hcon
    exact absurd hcon.1 (by decide)

/-- C7 amended: length 10, height 4, mesh_size 2 gives 5 columns and 2
rows of elements, hence 6 * 3 = 18 nodes and 5 * 2 = 10 elements. -/
theorem scenario3_actual :
    clampCount 10 2 = 5 ∧ clampCount 4 2 = 2 ∧
    ∃ nodes elems, create_mesh 10 4 2 1 = Except.ok (nodes, elems) ∧
      nodes.length = 6 * 3 ∧ elems.length = 5 * 2 := by
  have hL : clampCount 10 2 = 5 := by
    rw [clampCount_eq_max 10 2 (by norm_num) (by norm_num)]
    norm_num
  have hH : clampCount 4 2 = 2 := by
    rw [clampCount_eq_max 4 2 (by norm_num) (by norm_num)]
    norm_num
  refine ⟨hL, hH, _, _, create_mesh_pos 10 4 2 1 (by norm_num) (by norm_num) (by norm_num),
    ?_, ?_⟩
  · rw [hL, hH, nodesOf_length, meshgridRavel_length, linspace_length, linspace_length]
    decide
  · rw [hL, hH]
    exact create_elems_length 2 5 1

/-- C6 counterexample: create_mesh does not reject a non-positive
thickness: with thickness -1 it still returns a mesh. -/
theorem create_mesh_no_rejection_cex : (create_mesh 10 10 5 (-1)).isOk = true := by
  rw [create_mesh_pos 10 10 5 (-1) (by norm_num) (by norm_num) (by norm_num)]
  rfl

/-- C6 amended: create_mesh performs no validation of the raw inputs:
for every nonnegative length and height, positive mesh_size and arbitrary
(also zero or negative) thickness it returns a mesh instead of raising an
InvalidDimension error; zero extents are silently clamped through the
derived counts.  No InvalidDimension rejection exists in the code. -/
theorem create_mesh_no_validation (length height mesh_size thickness : ℚ)
    (hl : 0 ≤ length) (hh : 0 ≤ height) (hms : 0 < mesh_size) :
    (create_mesh length height mesh_size thickness).isOk = true := by
  rw [create_mesh_pos length height mesh_size thickness hl hh hms]
  rfl

/-- C6 amended witness: zero length and negative thickness still build. -/
theorem create_mesh_no_validation_witness : (create_mesh 0 10 3 (-2)).isOk = true :=
  create_mesh_no_validation 0 10 3 (-2) (by decide) (by decide) (by decide)
/-- C1: for every valid generation (positive inputs, num_cols and num_rows
the clamped counts), the element building traversal over
num_rows * (num_cols + 1) flat cursor positions starting at 0 creates the
element sequence whose k-th element has id k and node ids
[b, b + 1, b + num_cols + 2, b + num_cols + 1] for bottom left cursor
b = k + k / num_cols; the sequence of bottom left cursors is exactly the
list of positions p with (p + 1) not an exact multiple of (num_cols + 1),
in order (every other position is skipped), and the total element count is
num_cols * num_rows, ids sequential from 0 and incremented only on
creation. -/
theorem create_mesh_element_traversal (length height mesh_size thickness : ℚ)
    (hl : 0 < length) (hh : 0 < height) (hms : 0 < mesh_size) (ht : 0 < thickness) :
    ∃ nodes elems, create_mesh length height mesh_size thickness = Except.ok (nodes, elems) ∧
      elems = (List.range ((clampCount length mesh_size).toNat
            * (clampCount height mesh_size).toNat)).map
          (elemAt (clampCount length mesh_size).toNat thickness) ∧
      elems.map (fun e => e.node.headI)
        = (List.range ((clampCount height mesh_size).toNat
              * ((clampCount length mesh_size).toNat + 1))).filter
            (fun p => !((p + 1) % ((clampCount length mesh_size).toNat + 1) == 0)) ∧
      elems.length = (clampCount length mesh_size).toNat
          * (clampCount height mesh_size).toNat := by
  have h1 : 1 ≤ clampCount length mesh_size := clampCount_ge_one length mesh_size hl.le hms
  refine ⟨_, _, create_mesh_pos length height mesh_size thickness hl.le hh.le hms,
    ?_, ?_, ?_⟩
  · exact create_elems_map (clampCount height mesh_size).toNat
      (clampCount length mesh_size).toNat thickness (by omega)
  · exact create_elems_trace (clampCount height mesh_size).toNat
      (clampCount length mesh_size).toNat thickness
  · exact create_elems_length (clampCount height mesh_size).toNat
      (clampCount length mesh_size).toNat thickness

/-- C1 witness at length 10, height 10, mesh_size 5, thickness 1. -/
theorem create_mesh_element_traversal_witness :
    ∃ nodes elems, create_mesh 10 10 5 1 = Except.ok (nodes, elems) ∧
      elems = (List.range ((clampCount 10 5).toNat * (clampCount 10 5).toNat)).map
          (elemAt (clampCount 10 5).toNat 1) ∧
      elems.map (fun e => e.node.headI)
        = (List.range ((clampCount 10 5).toNat * ((clampCount 10 5).toNat + 1))).filter
            (fun p => !((p + 1) % ((clampCount 10 5).toNat + 1) == 0)) ∧
      elems.length = (clampCount 10 5).toNat * (clampCount 10 5).toNat :=
  create_mesh_element_traversal 10 10 5 1 (by decide) (by decide) (by decide) (by decide)

/-- C3: for all positive inputs, the node list is the row major lattice of
num_cols + 1 evenly spaced x samples from 0 to length crossed with
num_rows + 1 evenly spaced y samples from 0 to height, bottom row first,
left to right: node i is the i-th point of this traversal, its x value is
(i mod (num_cols + 1)) * length / num_cols and its y value is
(i div (num_cols + 1)) * height / num_rows; in particular node 0 lies at
(0, 0) and the last node lies at (length, height). -/
theorem create_mesh_lattice (length height mesh_size thickness : ℚ)
    (hl : 0 < length) (hh : 0 < height) (hms : 0 < mesh_size) :
    ∃ nodes elems, create_mesh length height mesh_size thickness = Except.ok (nodes, elems) ∧
      nodes.length = ((clampCount length mesh_size).toNat + 1)
          * ((clampCount height mesh_size).toNat + 1) ∧
      (∀ i, i < nodes.length →
        nodes[i]? = some (i, Node.mk i
          (((i % ((clampCount length mesh_size).toNat + 1) : ℕ) : ℚ) * length
            / ((clampCount length mesh_size).toNat : ℚ))
          (((i / ((clampCount length mesh_size).toNat + 1) : ℕ) : ℚ) * height
            / ((clampCount height mesh_size).toNat : ℚ)))) ∧
      nodes[0]? = some (0, Node.mk 0 0 0) ∧
      nodes[nodes.length - 1]?
        = some (nodes.length - 1, Node.mk (nodes.length - 1) length height) := by
  have h1 : 1 ≤ clampCount length mesh_size := clampCount_ge_one length mesh_size hl.le hms
  have h2 : 1 ≤ clampCount height mesh_size := clampCount_ge_one height mesh_size hh.le hms
  have hm : 0 < (clampCount length mesh_size).toNat := by omega
  have hn : 0 < (clampCount height mesh_size).toNat := by omega
  refine ⟨_, _, create_mesh_pos length height mesh_size thickness hl.le hh.le hms,
    ?_, ?_, ?_, ?_⟩
  case refine_1 =>
    rw [nodesOf_length, meshgridRavel_length, linspace_length, linspace_length]
    ring
  case refine_2 =>
    intro i hi
    rw [nodesOf_length, meshgridRavel_length, linspace_length, linspace_length] at hi
    exact lattice_getElem length height (clampCount length mesh_size).toNat
      (clampCount height mesh_size).toNat i (by rw [Nat.mul_comm] at hi; exact hi)
  case refine_3 =>
    have h0 := lattice_getElem length height (clampCount length mesh_size).toNat
      (clampCount height mesh_size).toNat 0 (by positivity)
    rw [h0]
    norm_num
  case refine_4 =>
    rw [nodesOf_length, meshgridRavel_length, linspace_length, linspace_length]
    have hrel : ((clampCount height mesh_size).toNat + 1)
          * ((clampCount length mesh_size).toNat + 1) - 1
        = (clampCount height mesh_size).toNat * ((clampCount length mesh_size).toNat + 1)
          + (clampCount length mesh_size).toNat := by
      have hx : ((clampCount height mesh_size).toNat + 1)
            * ((clampCount length mesh_size).toNat + 1)
          = (clampCount height mesh_size).toNat * ((clampCount length mesh_size).toNat + 1)
            + ((clampCount length mesh_size).toNat + 1) := by ring
      omega
    rw [hrel]
    obtain ⟨hmod, hdiv⟩ := rowcol_mod_div (clampCount length mesh_size).toNat
      (clampCount height mesh_size).toNat (clampCount length mesh_size).toNat (by omega)
    have hlast := lattice_getElem length height (clampCount length mesh_size).toNat
      (clampCount height mesh_size).toNat
      ((clampCount height mesh_size).toNat * ((clampCount length mesh_size).toNat + 1)
        + (clampCount length mesh_size).toNat)
      (by
        have hx : ((clampCount length mesh_size).toNat + 1)
              * ((clampCount height mesh_size).toNat + 1)
            = (clampCount height mesh_size).toNat
                * ((clampCount length mesh_size).toNat + 1)
              + ((clampCount length mesh_size).toNat + 1) := by ring
        omega)
    have hc1 : ((clampCount length mesh_size).toNat : ℚ) ≠ 0 := by
      exact_mod_cast hm.ne'
    have hc2 : ((clampCount height mesh_size).toNat : ℚ) ≠ 0 := by
      exact_mod_cast hn.ne'
    rw [hlast, hmod, hdiv, mul_div_cancel_left₀ length hc1, mul_div_cancel_left₀ height hc2]

/-- C3 witness at length 10, height 10, mesh_size 5, thickness 1. -/
theorem create_mesh_lattice_witness :
    ∃ nodes elems, create_mesh 10 10 5 1 = Except.ok (nodes, elems) ∧
      nodes.length = ((clampCount 10 5).toNat + 1) * ((clampCount 10 5).toNat + 1) ∧
      (∀ i, i < nodes.length →
        nodes[i]? = some (i, Node.mk i
          (((i % ((clampCount 10 5).toNat + 1) : ℕ) : ℚ) * 10 / ((clampCount 10 5).toNat : ℚ))
          (((i / ((clampCount 10 5).toNat + 1) : ℕ) : ℚ) * 10
            / ((clampCount 10 5).toNat : ℚ)))) ∧
      nodes[0]? = some (0, Node.mk 0 0 0) ∧
      nodes[nodes.length - 1]? = some (nodes.length - 1, Node.mk (nodes.length - 1) 10 10) :=
  create_mesh_lattice 10 10 5 1 (by decide) (by decide) (by decide)
/-- C5: for every element of a mesh generated from positive inputs, the 4
node ids are pairwise distinct and lie in the valid node id range
0 .. node_count - 1, and each referenced id exists as a key of the node
dictionary. -/
theorem create_mesh_element_ids_valid (length height mesh_size thickness : ℚ)
    (hl : 0 < length) (hh : 0 < height) (hms : 0 < mesh_size) :
    ∃ nodes elems, create_mesh length height mesh_size thickness = Except.ok (nodes, elems) ∧
      ∀ e ∈ elems, e.node.length = 4 ∧ e.node.Nodup ∧
        ∀ p ∈ e.node, p < nodes.length ∧ (nodes.lookup p).isSome = true := by
  have h1 : 1 ≤ clampCount length mesh_size := clampCount_ge_one length mesh_size hl.le hms
  refine ⟨_, _, create_mesh_pos length height mesh_size thickness hl.le hh.le hms, ?_⟩
  intro e he
  obtain ⟨hlen4, hnodup, hbound⟩ := create_elems_node_bound
    (clampCount height mesh_size).toNat (clampCount length mesh_size).toNat thickness
    (by omega) e he
  refine ⟨hlen4, hnodup, ?_⟩
  intro p hp
  have hplt := hbound p hp
  have hlen : (nodesOf (meshgridRavel (linspace length ((clampCount length mesh_size).toNat + 1))
        (linspace height ((clampCount height mesh_size).toNat + 1)))).length
      = ((clampCount length mesh_size).toNat + 1)
        * ((clampCount height mesh_size).toNat + 1) := by
    rw [nodesOf_length, meshgridRavel_length, linspace_length, linspace_length]
    ring
  constructor
  · rw [hlen]
    exact hplt
  · apply nodesOf_lookup_isSome
    rw [meshgridRavel_length, linspace_length, linspace_length, Nat.mul_comm]
    exact hplt

/-- C5 witness at length 10, height 10, mesh_size 5, thickness 1. -/
theorem create_mesh_element_ids_valid_witness :
    ∃ nodes elems, create_mesh 10 10 5 1 = Except.ok (nodes, elems) ∧
      ∀ e ∈ elems, e.node.length = 4 ∧ e.node.Nodup ∧
        ∀ p ∈ e.node, p < nodes.length ∧ (nodes.lookup p).isSome = true :=
  create_mesh_element_ids_valid 10 10 5 1 (by decide) (by decide) (by decide)
/-- C4: for every element of every mesh generated from positive inputs,
resolving its 4 node ids to coordinates in declared order and computing
the signed polygon area yields a strictly positive value: the winding is
counter clockwise from the bottom left corner. -/
theorem create_mesh_ccw_winding (length height mesh_size thickness : ℚ)
    (hl : 0 < length) (hh : 0 < height) (hms : 0 < mesh_size) (ht : 0 < thickness) :
    ∃ nodes elems, create_mesh length height mesh_size thickness = Except.ok (nodes, elems) ∧
      ∀ e ∈ elems, ∃ pts, e.get_coordination nodes = some { e with xy := some pts } ∧
        0 < signedArea pts := by
  have h1 : 1 ≤ clampCount length mesh_size := clampCount_ge_one length mesh_size hl.le hms
  have h2 : 1 ≤ clampCount height mesh_size := clampCount_ge_one height mesh_size hh.le hms
  refine ⟨_, _, create_mesh_pos length height mesh_size thickness hl.le hh.le hms, ?_⟩
  set m := (clampCount length mesh_size).toNat with hmdef
  set n := (clampCount height mesh_size).toNat with hndef
  have hm : 0 < m := by omega
  have hn : 0 < n := by omega
  intro e he
  rw [create_elems_rows] at he
  obtain ⟨r, hrmem, he⟩ := List.mem_flatMap.mp he
  rw [List.mem_range] at hrmem
  simp only [rowOf] at he
  obtain ⟨j, hjmem, rfl⟩ := List.mem_map.mp he
  rw [List.mem_range] at hjmem
  have hrel1 : r * (m + 1) + j + 1 = r * (m + 1) + (j + 1) := by omega
  have hrel2 : r * (m + 1) + j + m + 2 = (r + 1) * (m + 1) + (j + 1) := by ring
  have hrel3 : r * (m + 1) + j + m + 1 = (r + 1) * (m + 1) + j := by ring
  have hgen : ∀ rr jj : ℕ, rr ≤ n → jj ≤ m → rr * (m + 1) + jj < (m + 1) * (n + 1) := by
    intro rr jj hrr hjj
    have hmul : rr * (m + 1) ≤ n * (m + 1) := Nat.mul_le_mul_right _ hrr
    have hsum : (m + 1) * (n + 1) = n * (m + 1) + (m + 1) := by ring
    omega
  obtain ⟨hmod0, hdiv0⟩ := rowcol_mod_div m r j (by omega)
  obtain ⟨hmod1, hdiv1⟩ := rowcol_mod_div m r (j + 1) (by omega)
  obtain ⟨hmod2, hdiv2⟩ := rowcol_mod_div m (r + 1) (j + 1) (by omega)
  obtain ⟨hmod3, hdiv3⟩ := rowcol_mod_div m (r + 1) j (by omega)
  have l0 := lattice_lookup length height m n (r * (m + 1) + j)
    (hgen r j (by omega) (by omega))
  rw [hmod0, hdiv0] at l0
  have l1 := lattice_lookup length height m n (r * (m + 1) + (j + 1))
    (hgen r (j + 1) (by omega) (by omega))
  rw [hmod1, hdiv1] at l1
  have l2 := lattice_lookup length height m n ((r + 1) * (m + 1) + (j + 1))
    (hgen (r + 1) (j + 1) (by omega) (by omega))
  rw [hmod2, hdiv2] at l2
  have l3 := lattice_lookup length height m n ((r + 1) * (m + 1) + j)
    (hgen (r + 1) j (by omega) (by omega))
  rw [hmod3, hdiv3] at l3
  refine ⟨[(((j : ℕ) : ℚ) * length / (m : ℚ), ((r : ℕ) : ℚ) * height / (n : ℚ)),
    ((((j + 1 : ℕ)) : ℚ) * length / (m : ℚ), ((r : ℕ) : ℚ) * height / (n : ℚ)),
    ((((j + 1 : ℕ)) : ℚ) * length / (m : ℚ), (((r + 1 : ℕ)) : ℚ) * height / (n : ℚ)),
    (((j : ℕ) : ℚ) * length / (m : ℚ), (((r + 1 : ℕ)) : ℚ) * height / (n : ℚ))], ?_, ?_⟩
  · simp only [Element.get_coordination]
    have hcc : collectCoords
        (nodesOf (meshgridRavel (linspace length (m + 1)) (linspace height (n + 1))))
        [r * (m + 1) + j, r * (m + 1) + j + 1, r * (m + 1) + j + m + 2,
          r * (m + 1) + j + m + 1]
        = some [(((j : ℕ) : ℚ) * length / (m : ℚ), ((r : ℕ) : ℚ) * height / (n : ℚ)),
            ((((j + 1 : ℕ)) : ℚ) * length / (m : ℚ), ((r : ℕ) : ℚ) * height / (n : ℚ)),
            ((((j + 1 : ℕ)) : ℚ) * length / (m : ℚ),
              (((r + 1 : ℕ)) : ℚ) * height / (n : ℚ)),
            (((j : ℕ) : ℚ) * length / (m : ℚ), (((r + 1 : ℕ)) : ℚ) * height / (n : ℚ))] := by
      rw [hrel1, hrel2, hrel3]
      simp only [collectCoords, l0, l1, l2, l3, Option.map_some']
    rw [hcc]
    rfl
  · have hmq : (0 : ℚ) < (m : ℚ) := by exact_mod_cast hm
    have hnq : (0 : ℚ) < (n : ℚ) := by exact_mod_cast hn
    have harea : signedArea
        [(((j : ℕ) : ℚ) * length / (m : ℚ), ((r : ℕ) : ℚ) * height / (n : ℚ)),
          ((((j + 1 : ℕ)) : ℚ) * length / (m : ℚ), ((r : ℕ) : ℚ) * height / (n : ℚ)),
          ((((j + 1 : ℕ)) : ℚ) * length / (m : ℚ), (((r + 1 : ℕ)) : ℚ) * height / (n : ℚ)),
          (((j : ℕ) : ℚ) * length / (m : ℚ), (((r + 1 : ℕ)) : ℚ) * height / (n : ℚ))]
        = (length / (m : ℚ)) * (height / (n : ℚ)) := by
      rw [signedArea_quad]
      push_cast
      field_simp
      ring
    rw [harea]
    exact mul_pos (div_pos hl hmq) (div_pos hh hnq)

/-- C4 witness at length 10, height 10, mesh_size 5, thickness 1. -/
theorem create_mesh_ccw_winding_witness :
    ∃ nodes elems, create_mesh 10 10 5 1 = Except.ok (nodes, elems) ∧
      ∀ e ∈ elems, ∃ pts, e.get_coordination nodes = some { e with xy := some pts } ∧
        0 < signedArea pts :=
  create_mesh_ccw_winding 10 10 5 1 (by decide) (by decide) (by decide) (by decide)
/-- C8 counterexample: create_mesh alone does not return a populated
structure: at length 10, height 10, mesh_size 5, thickness 1 it returns a
nonempty element list in which every xy field is still unset (None); the
coordinate resolution only happens in the separate Mesh construction. -/
theorem create_mesh_xy_unset_cex :
    ∃ nodes elems, create_mesh 10 10 5 1 = Except.ok (nodes, elems) ∧
      elems ≠ [] ∧ ∀ e ∈ elems, e.xy = none := by
  have hL : clampCount 10 5 = 2 := by
    rw [clampCount_eq_max 10 5 (by norm_num) (by norm_num)]
    norm_num
  refine ⟨_, _, create_mesh_pos 10 10 5 1 (by norm_num) (by norm_num) (by norm_num), ?_, ?_⟩
  · rw [hL]
    decide
  · rw [hL]
    decide

/-- C8 amended: mesh generation is a two step pipeline: create_mesh
returns the node dictionary and the element list with every xy unset, and
the subsequent Mesh construction resolves every element coordinate array
from the node dictionary, after which every xy is populated. -/
theorem create_mesh_two_step_pipeline (length height mesh_size thickness : ℚ)
    (hl : 0 < length) (hh : 0 < height) (hms : 0 < mesh_size) :
    ∃ nodes elems, create_mesh length height mesh_size thickness = Except.ok (nodes, elems) ∧
      (∀ e ∈ elems, e.xy = none) ∧
      ∃ msh, Mesh.build nodes elems = some msh ∧ msh.nodes = nodes ∧
        msh.elements.map (fun e => (e.id, e.node, e.thickness))
          = elems.map (fun e => (e.id, e.node, e.thickness)) ∧
        ∀ e ∈ msh.elements, e.xy.isSome = true := by
  have h1 : 1 ≤ clampCount length mesh_size := clampCount_ge_one length mesh_size hl.le hms
  refine ⟨_, _, create_mesh_pos length height mesh_size thickness hl.le hh.le hms, ?_, ?_⟩
  · intro e he
    rw [create_elems_rows] at he
    obtain ⟨r, hrmem, he⟩ := List.mem_flatMap.mp he
    simp only [rowOf] at he
    obtain ⟨j, hjmem, rfl⟩ := List.mem_map.mp he
    rfl
  · have hall : ∀ e ∈ create_elems (clampCount height mesh_size).toNat
          (clampCount length mesh_size).toNat thickness,
        ∀ p ∈ e.node,
          (((nodesOf (meshgridRavel
              (linspace length ((clampCount length mesh_size).toNat + 1))
              (linspace height ((clampCount height mesh_size).toNat + 1)))).lookup p).isSome)
            = true := by
      intro e he p hp
      obtain ⟨-, -, hbound⟩ := create_elems_node_bound
        (clampCount height mesh_size).toNat (clampCount length mesh_size).toNat thickness
        (by omega) e he
      apply nodesOf_lookup_isSome
      rw [meshgridRavel_length, linspace_length, linspace_length, Nat.mul_comm]
      exact hbound p hp
    have hs := get_element_coord_isSome
      (nodesOf (meshgridRavel (linspace length ((clampCount length mesh_size).toNat + 1))
        (linspace height ((clampCount height mesh_size).toNat + 1))))
      (create_elems (clampCount height mesh_size).toNat
        (clampCount length mesh_size).toNat thickness) hall
    obtain ⟨es2, hes2⟩ := Option.isSome_iff_exists.mp hs
    obtain ⟨hproj, hxy⟩ := get_element_coord_some_spec _ _ _ hes2
    refine ⟨Mesh.mk _ es2, ?_, rfl, hproj, hxy⟩
    simp only [Mesh.build, hes2, Option.map_some']
    rfl

/-- C8 amended witness at length 10, height 10, mesh_size 5, thickness 1. -/
theorem create_mesh_two_step_pipeline_witness :
    ∃ nodes elems, create_mesh 10 10 5 1 = Except.ok (nodes, elems) ∧
      (∀ e ∈ elems, e.xy = none) ∧
      ∃ msh, Mesh.build nodes elems = some msh ∧ msh.nodes = nodes ∧
        msh.elements.map (fun e => (e.id, e.node, e.thickness))
          = elems.map (fun e => (e.id, e.node, e.thickness)) ∧
        ∀ e ∈ msh.elements, e.xy.isSome = true :=
  create_mesh_two_step_pipeline 10 10 5 1 (by decide) (by decide) (by decide)

/-- C9: resolving the coordinates of an element against a node table
succeeds exactly when every referenced node id is a key of the table, in
which case the xy field receives, in the declared node order, the x, y
pair of each referenced node; when any referenced id is absent the whole
resolution fails (KeyError, modelled as none) and no partial result is
produced. -/
theorem get_coordination_resolves (e : Element) (d : List (ℕ × Node)) :
    ((∀ p ∈ e.node, (d.lookup p).isSome = true) →
      ∃ pts, e.get_coordination d = some { e with xy := some pts } ∧
        pts.length = e.node.length ∧
        ∀ i : ℕ, pts[i]?
          = ((e.node[i]?).bind (fun p => d.lookup p)).map (fun nd => (nd.x, nd.y)))
    ∧ ((∃ p ∈ e.node, d.lookup p = none) → e.get_coordination d = none) := by
  constructor
  · intro hall
    have hs : (collectCoords d e.node).isSome = true :=
      (collectCoords_isSome_iff d e.node).mpr hall
    obtain ⟨cs, hcs⟩ := Option.isSome_iff_exists.mp hs
    obtain ⟨hlen, hget⟩ := collectCoords_some_spec d e.node cs hcs
    exact ⟨cs, by simp only [Element.get_coordination, hcs, Option.map_some'], hlen, hget⟩
  · intro hmiss
    simp only [Element.get_coordination,
      collectCoords_none_of_missing d e.node hmiss, Option.map_none']

/-- C9 witness: a concrete success on the unit square and a concrete
KeyError on a dangling reference. -/
theorem get_coordination_resolves_witness :
    (∃ pts, unitElem.get_coordination unitNodes = some { unitElem with xy := some pts } ∧
      pts.length = unitElem.node.length ∧
      ∀ i : ℕ, pts[i]?
        = ((unitElem.node[i]?).bind (fun p => unitNodes.lookup p)).map
            (fun nd => (nd.x, nd.y)))
    ∧ danglingElem.get_coordination unitNodes = none :=
  ⟨(get_coordination_resolves unitElem unitNodes).1 (by decide),
    (get_coordination_resolves danglingElem unitNodes).2 ⟨5, by decide, by decide⟩⟩

/-- C10: constructing a Mesh from a node table and an element list leaves
the node table untouched and changes nothing in any element except the
derived xy field: ids, node lists and thicknesses are preserved
elementwise and in order. -/
theorem mesh_build_frame (nodes_dict : List (ℕ × Node)) (elements : List Element)
    (msh : Mesh) (hb : Mesh.build nodes_dict elements = some msh) :
    msh.nodes = nodes_dict ∧
    msh.elements.map (fun e => (e.id, e.node, e.thickness))
      = elements.map (fun e => (e.id, e.node, e.thickness)) := by
  simp only [Mesh.build] at hb
  cases hg : get_element_coord nodes_dict elements with
  | none => rw [hg] at hb; simp at hb
  | some es2 =>
    rw [hg] at hb
    simp only [Option.map_some', Option.some.injEq] at hb
    subst hb
    exact ⟨rfl, (get_element_coord_some_spec nodes_dict elements es2 hg).1⟩

/-- C10 witness: the concrete unit square mesh. -/
theorem mesh_build_frame_witness :
    (Mesh.mk unitNodes
        [Element.mk 0 [0, 1, 3, 2] 1 (some [(0, 0), (1, 0), (1, 1), (0, 1)])]).nodes
      = unitNodes ∧
    (Mesh.mk unitNodes
        [Element.mk 0 [0, 1, 3, 2] 1
          (some [(0, 0), (1, 0), (1, 1), (0, 1)])]).elements.map
        (fun e => (e.id, e.node, e.thickness))
      = [unitElem].map (fun e => (e.id, e.node, e.thickness)) :=
  mesh_build_frame unitNodes [unitElem]
    (Mesh.mk unitNodes
      [Element.mk 0 [0, 1, 3, 2] 1 (some [(0, 0), (1, 0), (1, 1), (0, 1)])])
    (by decide)
